import Mathlib

/-!
Verification of the elerp protocol core (src/src/protocol.py, src/src/helper.py,
src/src/networking.py, src/elerpServer.py).

The Python code is shallowly embedded:

* Python runtime values that can appear in protocol envelopes are the
  inductive `PyValue` (dicts are association lists of string keys, in
  insertion order, as Python dicts preserve insertion order).
* The JSON wire format is the inductive `JValue`.  The Python standard
  library's `json.dumps`/`json.loads` pair is treated as an external
  collaborator translating faithfully between JSON text and JSON trees;
  the repository's own codec logic (the `ProtocolEncoder.default`
  hooks, `protocolHook`, and `recursiveJSONParser`) is modelled exactly
  at the tree level.  The one place where raw JSON *text* semantics leak
  into the repository's logic - `recursiveJSONParser` calling
  `json.loads` on arbitrary embedded strings - is modelled by an
  executable JSON text parser `jsonParseText` implementing the grammar
  accepted by `json.loads`.
* Fallible Python code (KeyError, IndexError, TypeError, AttributeError,
  ValueError) is modelled with `Except PyErr`.
* Sockets are modelled as byte streams with an arbitrary chunking
  schedule (`ByteStream`), so every possible split of TCP data into `recv`
  results is covered.
-/

/-- The REQUEST enum of protocol.py (values get/post/put/delete). -/
inductive REQUEST where
  | GET | POST | PUT | DELETE
  deriving Repr

/-- The RESPONSE enum of protocol.py (values ok/error). -/
inductive RESPONSE where
  | OK | ERROR
  deriving Repr

/-- The STATUS enum of protocol.py. -/
inductive STATUS where
  | SUCCESS | INVALID_REQUEST | EMPTY_PARAMETER | INVALID_PARAMETER | UPLOAD_FAILED
  deriving Repr

/-- The `.value` of a REQUEST member. -/
def REQUEST.value : REQUEST → String
  | .GET => "get" | .POST => "post" | .PUT => "put" | .DELETE => "delete"

/-- `REQUEST(s)`: look a member up by value; `Option.none` models the
ValueError raised for a non-member value. -/
def REQUEST.fromValue : String → Option REQUEST
  | "get" => some .GET | "post" => some .POST
  | "put" => some .PUT | "delete" => some .DELETE
  | _ => none

/-- The `.value` of a RESPONSE member. -/
def RESPONSE.value : RESPONSE → String
  | .OK => "ok" | .ERROR => "error"

/-- `RESPONSE(s)`: look a member up by value. -/
def RESPONSE.fromValue : String → Option RESPONSE
  | "ok" => some .OK | "error" => some .ERROR | _ => none

/-- The `.value` of a STATUS member. -/
def STATUS.value : STATUS → String
  | .SUCCESS => "success" | .INVALID_REQUEST => "invalid_request"
  | .EMPTY_PARAMETER => "empty_parameter" | .INVALID_PARAMETER => "invalid_parameter"
  | .UPLOAD_FAILED => "upload_failed"

/-- `STATUS(s)`: look a member up by value. -/
def STATUS.fromValue : String → Option STATUS
  | "success" => some .SUCCESS | "invalid_request" => some .INVALID_REQUEST
  | "empty_parameter" => some .EMPTY_PARAMETER
  | "invalid_parameter" => some .INVALID_PARAMETER
  | "upload_failed" => some .UPLOAD_FAILED | _ => none

/-- Python values that can appear in protocol messages (protocol.py).
`float` is kept opaque as its literal token: no protocol logic computes
with floats, they can only arise from re-parsing embedded JSON text.
`bytes` is a list of byte values.  The three enum classes REQUEST,
RESPONSE and STATUS appear as dedicated constructors. -/
inductive PyValue where
  | none
  | bool (b : Bool)
  | int (n : Int)
  | float (lit : String)
  | str (s : String)
  | bytes (bs : List Nat)
  | list (xs : List PyValue)
  | dict (kvs : List (String × PyValue))
  | req (r : REQUEST)
  | resp (r : RESPONSE)
  | status (s : STATUS)
  deriving Repr

/-- Python exceptions the embedded code can raise.  `decodeError`
covers both `json.JSONDecodeError` and the ValueError raised by an enum
constructor during decoding; `unhandledPair` is the ValueError raised by
`ProtocolExecutor.executeHandlers` naming the (type, command) tuple;
`invalidResponse` is the ValueError raised by `searchServer`. -/
inductive PyErr where
  | keyError (k : String)
  | indexError
  | typeError
  | attributeError (name : String)
  | unhandledPair (t c : PyValue)
  | invalidResponse
  | decodeError
  deriving Repr

/-- Whether an exception is (a subclass of) Python's ValueError: the
executor's unhandled-command error, searchServer's invalid-response
error, `json.JSONDecodeError` and enum-constructor errors all are. -/
def PyErr.isValueError : PyErr → Bool
  | .unhandledPair _ _ => true
  | .invalidResponse => true
  | .decodeError => true
  | _ => false

/-- JSON trees: the image of Python data under `json.dumps` /
the pre-image of `json.loads`.  `numF` carries the literal token of a
number with a fractional part, exponent, or one of the non-finite
tokens NaN and Infinity that `json.loads` additionally accepts. -/
inductive JValue where
  | null
  | bool (b : Bool)
  | int (n : Int)
  | numF (lit : String)
  | str (s : String)
  | arr (xs : List JValue)
  | obj (kvs : List (String × JValue))
  deriving Repr

/-- The base64 alphabet. -/
def b64alphabet : List Char :=
  "ABCDEFGHIJKLMNOPQRSTUVWXYZabcdefghijklmnopqrstuvwxyz0123456789+/".toList

/-- The alphabet character for a 6-bit group. -/
def b64char (n : Nat) : Char := b64alphabet.getD n 'A'

/-- Characters of the base64 encoding of a byte list, 3 bytes at a time
(models `base64.b64encode(obj).decode()` in ProtocolEncoder.default). -/
def b64encodeAux : List Nat → List Char
  | [] => []
  | [a] => [b64char (a / 4), b64char (a % 4 * 16), '=', '=']
  | [a, b] => [b64char (a / 4), b64char (a % 4 * 16 + b / 16), b64char (b % 16 * 4), '=']
  | a :: b :: c :: rest =>
      b64char (a / 4) :: b64char (a % 4 * 16 + b / 16) ::
      b64char (b % 16 * 4 + c / 64) :: b64char (c % 64) :: b64encodeAux rest

/-- Base64 text of a byte list. -/
def b64encode (bs : List Nat) : String := String.mk (b64encodeAux bs)

mutual
/-- `json.dumps(v, cls=ProtocolEncoder, ensure_ascii=False)` at tree
level: the encoder's `default` method turns REQUEST/RESPONSE/STATUS
members into one-entry tag objects and bytes into base64 text; the rest
is the standard JSON rendering of Python data. -/
def encodePy : PyValue → JValue
  | .none => .null
  | .bool b => .bool b
  | .int n => .int n
  | .float lit => .numF lit
  | .str s => .str s
  | .bytes bs => .str (b64encode bs)
  | .list xs => .arr (encodePyList xs)
  | .dict kvs => .obj (encodePyKvs kvs)
  | .req r => .obj [("__REQUEST__", .str r.value)]
  | .resp r => .obj [("__RESPONSE__", .str r.value)]
  | .status s => .obj [("__STATUS__", .str s.value)]

/-- Elementwise encoding of a Python list. -/
def encodePyList : List PyValue → List JValue
  | [] => []
  | x :: r => encodePy x :: encodePyList r

/-- Valuewise encoding of a Python dict. -/
def encodePyKvs : List (String × PyValue) → List (String × JValue)
  | [] => []
  | (k, v) :: r => (k, encodePy v) :: encodePyKvs r
end

/-- Python dict lookup `kvs[k]` on an association list; when duplicate
keys arose from parsing, the last value wins, as in a Python dict
built by the JSON parser. -/
def pyGet : List (String × PyValue) → String → Option PyValue
  | [], _ => Option.none
  | (k', v) :: rest, k =>
      match pyGet rest k with
      | some w => some w
      | Option.none => if k' = k then some v else Option.none

/-- `REQUEST(v)`: calling the enum class. A member is returned as
itself, a string is looked up by value, anything else is a ValueError
(surfacing as a decode error inside `json.loads`). -/
def requestCall : PyValue → Except PyErr PyValue
  | .req r => .ok (.req r)
  | .str s =>
      match REQUEST.fromValue s with
      | some r => .ok (.req r)
      | Option.none => .error .decodeError
  | _ => .error .decodeError

/-- `RESPONSE(v)`: calling the enum class. -/
def responseCall : PyValue → Except PyErr PyValue
  | .resp r => .ok (.resp r)
  | .str s =>
      match RESPONSE.fromValue s with
      | some r => .ok (.resp r)
      | Option.none => .error .decodeError
  | _ => .error .decodeError

/-- `STATUS(v)`: calling the enum class. -/
def statusCall : PyValue → Except PyErr PyValue
  | .status st => .ok (.status st)
  | .str s =>
      match STATUS.fromValue s with
      | some st => .ok (.status st)
      | Option.none => .error .decodeError
  | _ => .error .decodeError

/-- `protocolHook(data)` from protocol.py: applied by `json.loads` to
every parsed object; a dict containing one of the three tag keys is
replaced by the corresponding enum member. -/
def protocolHook (kvs : List (String × PyValue)) : Except PyErr PyValue :=
  match pyGet kvs "__REQUEST__" with
  | some v => requestCall v
  | Option.none =>
    match pyGet kvs "__RESPONSE__" with
    | some v => responseCall v
    | Option.none =>
      match pyGet kvs "__STATUS__" with
      | some v => statusCall v
      | Option.none => .ok (.dict kvs)

mutual
/-- `json.loads(text, object_hook=protocolHook)` after the text has been
parsed into a tree: every object is decoded bottom-up and passed through
`protocolHook`; hook failures abort the whole load. -/
def jsonLoadTree : JValue → Except PyErr PyValue
  | .null => .ok .none
  | .bool b => .ok (.bool b)
  | .int n => .ok (.int n)
  | .numF lit => .ok (.float lit)
  | .str s => .ok (.str s)
  | .arr xs =>
      match jsonLoadList xs with
      | .error e => .error e
      | .ok vs => .ok (.list vs)
  | .obj kvs =>
      match jsonLoadKvs kvs with
      | .error e => .error e
      | .ok pvs => protocolHook pvs

/-- Elementwise decoding of a JSON array. -/
def jsonLoadList : List JValue → Except PyErr (List PyValue)
  | [] => .ok []
  | x :: r =>
      match jsonLoadTree x with
      | .error e => .error e
      | .ok v =>
        match jsonLoadList r with
        | .error e => .error e
        | .ok vs => .ok (v :: vs)

/-- Valuewise decoding of a JSON object. -/
def jsonLoadKvs : List (String × JValue) → Except PyErr (List (String × PyValue))
  | [] => .ok []
  | (k, v) :: r =>
      match jsonLoadTree v with
      | .error e => .error e
      | .ok w =>
        match jsonLoadKvs r with
        | .error e => .error e
        | .ok ws => .ok ((k, w) :: ws)
end

/-- Skip JSON whitespace. -/
def skipWs : List Char → List Char
  | c :: r => if c = ' ' ∨ c = '\t' ∨ c = '\n' ∨ c = '\r' then skipWs r else c :: r
  | [] => []

/-- Value of a hexadecimal digit. -/
def hexVal (c : Char) : Option Nat :=
  if '0' ≤ c ∧ c ≤ '9' then some (c.toNat - '0'.toNat)
  else if 'a' ≤ c ∧ c ≤ 'f' then some (c.toNat - 'a'.toNat + 10)
  else if 'A' ≤ c ∧ c ≤ 'F' then some (c.toNat - 'A'.toNat + 10)
  else Option.none

/-- Scalar value for a code point; surrogates and out-of-range values,
which Lean characters cannot carry, are replaced by U+FFFD.  (CPython
keeps lone surrogates in strings; collapsing them to a replacement
character only ever widens the set of strings the round-trip theorems
exclude, it never lets a mangled string count as preserved.) -/
def charOfCodepoint (n : Nat) : Char :=
  if h : n < 0xd800 then Char.ofNatAux n (by omega)
  else if h2 : 0xe000 ≤ n ∧ n < 0x110000 then Char.ofNatAux n (by omega)
  else '�'

/-- Body of a JSON string literal, after the opening quote: the
characters until the closing quote, with backslash escapes decoded
(`\uXXXX` pairs of surrogates are combined). -/
def parseStringAux (acc : List Char) (cs : List Char) : Option (String × List Char) :=
  match cs with
  | '"' :: r => some (String.mk acc.reverse, r)
  | '\\' :: 'u' :: h1 :: h2 :: h3 :: h4 :: r =>
      match hexVal h1, hexVal h2, hexVal h3, hexVal h4 with
      | some a, some b, some c, some d =>
        let v := ((a * 16 + b) * 16 + c) * 16 + d
        if 0xd800 ≤ v ∧ v < 0xdc00 then
          match r with
          | '\\' :: 'u' :: g1 :: g2 :: g3 :: g4 :: r2 =>
            match hexVal g1, hexVal g2, hexVal g3, hexVal g4 with
            | some a', some b', some c', some d' =>
              let w := ((a' * 16 + b') * 16 + c') * 16 + d'
              if 0xdc00 ≤ w ∧ w < 0xe000 then
                parseStringAux
                  (charOfCodepoint (0x10000 + (v - 0xd800) * 0x400 + (w - 0xdc00)) :: acc) r2
              else
                parseStringAux (charOfCodepoint v :: acc)
                  ('\\' :: 'u' :: g1 :: g2 :: g3 :: g4 :: r2)
            | _, _, _, _ =>
                parseStringAux (charOfCodepoint v :: acc)
                  ('\\' :: 'u' :: g1 :: g2 :: g3 :: g4 :: r2)
          | rOther => parseStringAux (charOfCodepoint v :: acc) rOther
        else parseStringAux (charOfCodepoint v :: acc) r
      | _, _, _, _ => Option.none
  | '\\' :: e :: r =>
      match e with
      | '"' => parseStringAux ('"' :: acc) r
      | '\\' => parseStringAux ('\\' :: acc) r
      | '/' => parseStringAux ('/' :: acc) r
      | 'b' => parseStringAux ('\x08' :: acc) r
      | 'f' => parseStringAux ('\x0c' :: acc) r
      | 'n' => parseStringAux ('\n' :: acc) r
      | 'r' => parseStringAux ('\r' :: acc) r
      | 't' => parseStringAux ('\t' :: acc) r
      | _ => Option.none
  | c :: r => parseStringAux (c :: acc) r
  | [] => Option.none
termination_by cs.length
decreasing_by all_goals simp_arith

/-- Natural number denoted by a list of decimal digits. -/
def digitsToNat (ds : List Char) : Nat :=
  ds.foldl (fun n c => n * 10 + (c.toNat - '0'.toNat)) 0

/-- A JSON number starting at the head of the input: an optional minus
sign, an integer part with no leading zero, then an optional fraction
and exponent.  A plain integer yields `JValue.int`; a fraction or
exponent yields the opaque float literal. -/
def parseNumber (cs : List Char) : Option (JValue × List Char) :=
  let (neg, cs1) := match cs with
    | '-' :: r => (true, r)
    | _ => (false, cs)
  let ds := cs1.takeWhile Char.isDigit
  let rest := cs1.dropWhile Char.isDigit
  if ds.isEmpty then Option.none
  else if ds.headD '0' = '0' ∧ ds.length > 1 then Option.none
  else
    let (fds, rest2) := match rest with
      | '.' :: r2 =>
        let f := r2.takeWhile Char.isDigit
        (('.' :: f), r2.dropWhile Char.isDigit)
      | _ => ([], rest)
    if fds.length = 1 then Option.none   -- a dot with no digits
    else
      let (eds, rest3) := match rest2 with
        | e :: r3 =>
          if e = 'e' ∨ e = 'E' then
            let (sgn, r4) := match r3 with
              | s :: r5 => if s = '+' ∨ s = '-' then ([s], r5) else (([] : List Char), r3)
              | [] => ([], r3)
            let xs := r4.takeWhile Char.isDigit
            if xs.isEmpty then (([] : List Char), ([] : List Char), false)
            else ((e :: sgn ++ xs), r4.dropWhile Char.isDigit, true)
          else ([], rest2, true)
        | [] => ([], rest2, true)
      match eds, rest3 with
      | _, (_, false) => Option.none
      | es, (r, true) =>
        if fds.isEmpty ∧ es.isEmpty then
          some (.int (if neg then -(digitsToNat ds : Int) else (digitsToNat ds : Int)), r)
        else
          some (.numF (String.mk ((if neg then ['-'] else []) ++ ds ++ fds ++ es)), r)

mutual
/-- A JSON value at the head of the input, with a fuel bound on the
recursion (fuel is instantiated generously in `jsonParseText`; every
unit of fuel spent corresponds to at least one consumed character, so
the bound is never hit on inputs `json.loads` accepts). -/
def parseValue : Nat → List Char → Option (JValue × List Char)
  | 0, _ => Option.none
  | f + 1, cs =>
    match skipWs cs with
    | 'n' :: 'u' :: 'l' :: 'l' :: r => some (.null, r)
    | 't' :: 'r' :: 'u' :: 'e' :: r => some (.bool true, r)
    | 'f' :: 'a' :: 'l' :: 's' :: 'e' :: r => some (.bool false, r)
    | 'N' :: 'a' :: 'N' :: r => some (.numF "NaN", r)
    | 'I' :: 'n' :: 'f' :: 'i' :: 'n' :: 'i' :: 't' :: 'y' :: r => some (.numF "Infinity", r)
    | '-' :: 'I' :: 'n' :: 'f' :: 'i' :: 'n' :: 'i' :: 't' :: 'y' :: r =>
        some (.numF "-Infinity", r)
    | '"' :: r =>
        match parseStringAux [] r with
        | some (s, r2) => some (.str s, r2)
        | Option.none => Option.none
    | '[' :: r => parseArrBody f r
    | '{' :: r => parseObjBody f r
    | other => parseNumber other

/-- An array body, after the opening bracket. -/
def parseArrBody : Nat → List Char → Option (JValue × List Char)
  | 0, _ => Option.none
  | f + 1, cs =>
    match skipWs cs with
    | ']' :: r => some (.arr [], r)
    | other =>
      match parseValue f other with
      | Option.none => Option.none
      | some (v, r1) => parseArrRest f r1 [v]

/-- Elements of an array after the first, with the accumulated prefix. -/
def parseArrRest : Nat → List Char → List JValue → Option (JValue × List Char)
  | 0, _, _ => Option.none
  | f + 1, cs, acc =>
    match skipWs cs with
    | ',' :: r =>
      match parseValue f r with
      | Option.none => Option.none
      | some (v, r1) => parseArrRest f r1 (acc ++ [v])
    | ']' :: r => some (.arr acc, r)
    | _ => Option.none

/-- An object body, after the opening brace. -/
def parseObjBody : Nat → List Char → Option (JValue × List Char)
  | 0, _ => Option.none
  | f + 1, cs =>
    match skipWs cs with
    | '}' :: r => some (.obj [], r)
    | '"' :: r =>
      match parseStringAux [] r with
      | Option.none => Option.none
      | some (k, r1) =>
        match skipWs r1 with
        | ':' :: r2 =>
          match parseValue f r2 with
          | Option.none => Option.none
          | some (v, r3) => parseObjRest f r3 [(k, v)]
        | _ => Option.none
    | _ => Option.none

/-- Members of an object after the first, with the accumulated prefix. -/
def parseObjRest : Nat → List Char → List (String × JValue) → Option (JValue × List Char)
  | 0, _, _ => Option.none
  | f + 1, cs, acc =>
    match skipWs cs with
    | ',' :: r =>
      match skipWs r with
      | '"' :: r1 =>
        match parseStringAux [] r1 with
        | Option.none => Option.none
        | some (k, r2) =>
          match skipWs r2 with
          | ':' :: r3 =>
            match parseValue f r3 with
            | Option.none => Option.none
            | some (v, r4) => parseObjRest f r4 (acc ++ [(k, v)])
          | _ => Option.none
      | _ => Option.none
    | '}' :: r => some (.obj acc, r)
    | _ => Option.none
end

/-- `json.loads` on raw text, up to the tree: parse one value and demand
that only whitespace follows; `Option.none` is a JSONDecodeError. -/
def jsonParseText (s : String) : Option JValue :=
  let cs := s.toList
  match parseValue (cs.length + 16) cs with
  | some (v, rest) => if skipWs rest = [] then some v else Option.none
  | Option.none => Option.none

/-- The attempted `json.loads(data[key], object_hook=protocolHook)` that
`recursiveJSONParser` applies to every string value of a dict; both a
parse failure and a hook failure are swallowed by the bare `except` and
the original string survives. -/
def jsonReload (s : String) : PyValue :=
  match jsonParseText s with
  | Option.none => .str s
  | some jv =>
    match jsonLoadTree jv with
    | .error _ => .str s
    | .ok v => v

mutual
/-- `ProtocolHandler.recursiveJSONParser(data)` on a dict argument: each
string value is re-parsed as JSON text (kept as-is on failure), each
dict value is recursed into, and each list value has its string elements
passed through a recursive call.  A non-dict argument is returned
unchanged: iterating a string indexes it with its own characters and the
resulting TypeErrors are swallowed by the per-key `try`, and other
non-dict arguments occur only on paths where the subsequent `raw['type']`
access fails (see `deserializeMessageAsProtocolData`). -/
def recursiveJSONParser : PyValue → PyValue
  | .dict kvs => .dict (reparseKvs kvs)
  | v => v

/-- The `for key in data` loop of `recursiveJSONParser` over the entries
of a dict. -/
def reparseKvs : List (String × PyValue) → List (String × PyValue)
  | [] => []
  | (k, v) :: r => (k, reparseDictValue v) :: reparseKvs r

/-- What `recursiveJSONParser` does to one dict value. -/
def reparseDictValue : PyValue → PyValue
  | .str s => jsonReload s
  | .list xs => .list (reparseListElems xs)
  | .dict kvs => .dict (reparseKvs kvs)
  | v => v

/-- The inner loop over a list value: only string elements are touched,
and `recursiveJSONParser` on a string returns it unchanged, so every
element survives as-is. -/
def reparseListElems : List PyValue → List PyValue
  | [] => []
  | x :: r =>
      (match x with
       | .str s => recursiveJSONParser (.str s)
       | y => y) :: reparseListElems r
end

/-- `v is None` in Python. -/
def PyValue.isPyNone : PyValue → Bool
  | .none => true
  | _ => false

/-- The ProtocolData wrapper of protocol.py: a dict with keys
type/command/message and an optional attributes key (present exactly
when `setAttributeStrings` has stored it). -/
structure ProtocolData where
  type : PyValue
  command : PyValue
  message : PyValue
  attributes : Option PyValue
  deriving Repr

/-- `ProtocolData()`: type None, command None, message an empty dict,
no attributes key. -/
def ProtocolData.init : ProtocolData :=
  ⟨.none, .none, .dict [], Option.none⟩

/-- `ProtocolData.setAttributeStrings(strings)`. -/
def ProtocolData.setAttributeStrings (d : ProtocolData) (strings : List String) : ProtocolData :=
  { d with attributes := some (.list (strings.map .str)) }

/-- `ProtocolData.getAttributeStrings()`: reads `self.data['attributes']`,
a KeyError when the key was never stored. -/
def ProtocolData.getAttributeStrings (d : ProtocolData) : Except PyErr PyValue :=
  match d.attributes with
  | some v => .ok v
  | Option.none => .error (.keyError "attributes")

/-- Insert-or-overwrite for a string-keyed Python dict: an existing key
keeps its position, a new key is appended. -/
def upsertStr (k : String) (v : PyValue) : List (String × PyValue) → List (String × PyValue)
  | [] => [(k, v)]
  | (k', v') :: rest =>
      if k' = k then (k, v) :: rest else (k', v') :: upsertStr k v rest

/-- The contents of `ProtocolHandler.self.data` between `prepMessage`
and `serializeMessage`.  `msgAliased` records the one aliasing fact the
embedding must track: whether `data['message']` is the *same object* as
`prepMessage`'s shared default-argument dict. -/
structure BuilderData where
  type : PyValue
  command : PyValue
  message : PyValue
  msgAliased : Bool
  deriving Repr

/-- State of a ProtocolHandler together with the module-level pieces it
interacts with: `data` is `self.data` (`Option.none` models the empty
dict it holds after `__init__` or `serializeMessage`), and
`sharedDefault` is the contents of the single dict object created once
as the default of `prepMessage`'s `mainMessage={}` parameter and shared
by every defaulted call. -/
structure HandlerState where
  data : Option BuilderData
  sharedDefault : List (String × PyValue)
  deriving Repr

/-- `ProtocolHandler()` against a fresh module: empty data, empty
shared default dict. -/
def HandlerState.init : HandlerState := ⟨Option.none, []⟩

/-- `prepMessage(responseObj, mainCommand=None, mainMessage={})`.
Passing `Option.none` for `mainMessage` models a call that omits the
argument and therefore stores (a reference to) the shared default
dict into `data['message']`. -/
def prepMessage (st : HandlerState) (responseObj : PyValue) (mainCommand : PyValue)
    (mainMessage : Option PyValue) : HandlerState :=
  match mainMessage with
  | some m => { st with data := some ⟨responseObj, mainCommand, m, false⟩ }
  | Option.none =>
      { st with data := some ⟨responseObj, mainCommand, .dict st.sharedDefault, true⟩ }

/-- `addAttribute(key, value)`: `self.data['message'][key] = value`.
When the message dict aliases the shared default dict, the write is
visible through both. Raises KeyError when no message was prepared and
TypeError when the prepared message is not a dict. -/
def addAttribute (st : HandlerState) (k : String) (v : PyValue) : Except PyErr HandlerState :=
  match st.data with
  | Option.none => .error (.keyError "message")
  | some d =>
    match d.message with
    | .dict kvs =>
        let kvs' := upsertStr k v kvs
        .ok { data := some { d with message := .dict kvs' },
              sharedDefault := if d.msgAliased then kvs' else st.sharedDefault }
    | _ => .error .typeError

/-- `serializeMessage()`: dumps `self.data` through ProtocolEncoder and
resets `self.data` to a fresh empty dict.  The shared default dict is
*not* reset. -/
def serializeMessage (st : HandlerState) : JValue × HandlerState :=
  match st.data with
  | some d =>
      (encodePy (.dict [("type", d.type), ("command", d.command), ("message", d.message)]),
       { st with data := Option.none })
  | Option.none => (.obj [], { st with data := Option.none })

/-- The wire form of one freshly prepared envelope:
`handler.prepMessage(t, cmd, body).serializeMessage()` with an explicit
body (the composition every call site in the repository uses). -/
def serializeEnvelope (t : PyValue) (cmd : PyValue) (body : PyValue) : JValue :=
  (serializeMessage (prepMessage HandlerState.init t cmd (some body))).1

/-- `ProtocolHandler.deserializeMessageAsProtocolData(message)`:
`json.loads` with `protocolHook`, then `recursiveJSONParser`, then the
three fixed keys are copied into a fresh ProtocolData.  The parsed
`attributes` key, if present, is dropped here.  A non-dict toplevel
value raises a TypeError: for ints/bools/None the `for key in data`
iteration itself raises, for strings and lists the following
`raw['type']` subscription does. -/
def deserializeMessageAsProtocolData (wire : JValue) : Except PyErr ProtocolData :=
  match jsonLoadTree wire with
  | .error e => .error e
  | .ok raw =>
    match raw with
    | .dict kvs =>
      let kvs' := reparseKvs kvs
      match pyGet kvs' "type" with
      | Option.none => .error (.keyError "type")
      | some t =>
        match pyGet kvs' "command" with
        | Option.none => .error (.keyError "command")
        | some c =>
          match pyGet kvs' "message" with
          | Option.none => .error (.keyError "message")
          | some m => .ok ⟨t, c, m, Option.none⟩
    | _ => .error .typeError

deriving instance DecidableEq for REQUEST
deriving instance DecidableEq for RESPONSE
deriving instance DecidableEq for STATUS

mutual
/-- Python `==` between protocol values, used for the executor's dict
key lookups and response comparisons.  Equality is structural; Python's
numeric cross-type equalities (True == 1, 1 == 1.0) and
order-insensitive dict equality are not reproduced, which is harmless
here because every comparison the code performs is between enum
members, strings and None. -/
def pyEq : PyValue → PyValue → Bool
  | .none, .none => true
  | .bool a, .bool b => a = b
  | .int a, .int b => a = b
  | .float a, .float b => a = b
  | .str a, .str b => a = b
  | .bytes a, .bytes b => a = b
  | .list a, .list b => pyEqList a b
  | .dict a, .dict b => pyEqKvs a b
  | .req a, .req b => a = b
  | .resp a, .resp b => a = b
  | .status a, .status b => a = b
  | _, _ => false

/-- Elementwise Python `==` on lists. -/
def pyEqList : List PyValue → List PyValue → Bool
  | [], [] => true
  | a :: ar, b :: br => pyEq a b && pyEqList ar br
  | _, _ => false

/-- Entrywise Python `==` on dict association lists. -/
def pyEqKvs : List (String × PyValue) → List (String × PyValue) → Bool
  | [], [] => true
  | (ka, va) :: ar, (kb, vb) :: br => ka = kb && pyEq va vb && pyEqKvs ar br
  | _, _ => false
end

/-- The ExecutorScope enum of protocol.py. -/
inductive ExecutorScope where
  | COMMAND | MESSAGE | WHOLE | RESPONSE
  deriving Repr, DecidableEq

/-- The value a registered action receives, as selected by its scope:
Python passes the raw body / command / type / ProtocolData object, and
this sum type is the typed image of that dynamically typed argument. -/
inductive ExecArg where
  | message (m : PyValue)
  | whole (d : ProtocolData)
  | command (c : PyValue)
  | response (t : PyValue)

/-- The ProtocolExecutor of protocol.py, for handlers returning `ρ`.
`handlers` is `Option.none` while the attribute has never been created
by `addMessageHandler`; likewise `defaultHandler` is `Option.none`
until `setDefaultHandler` stores a value (which may itself be None,
hence the inner Option). -/
structure ProtocolExecutor (ρ : Type) where
  message : Option ProtocolData
  handlers : Option (List ((PyValue × PyValue) × ((ExecArg → ρ) × ExecutorScope)))
  defaultHandler : Option (Option (ProtocolData → ρ))

/-- `ProtocolExecutor(message)`. -/
def ProtocolExecutor.init {ρ : Type} (msg : Option ProtocolData) : ProtocolExecutor ρ :=
  ⟨msg, Option.none, Option.none⟩

/-- `setMessage(message)`. -/
def setMessage {ρ : Type} (ex : ProtocolExecutor ρ) (msg : ProtocolData) : ProtocolExecutor ρ :=
  { ex with message := some msg }

/-- Insert-or-overwrite into the handlers dict, keyed by the
(requestType, requestCommand) tuple. -/
def upsertHandler {ρ : Type} (key : PyValue × PyValue) (v : (ExecArg → ρ) × ExecutorScope) :
    List ((PyValue × PyValue) × ((ExecArg → ρ) × ExecutorScope)) →
    List ((PyValue × PyValue) × ((ExecArg → ρ) × ExecutorScope))
  | [] => [(key, v)]
  | (key', v') :: rest =>
      if pyEq key'.1 key.1 && pyEq key'.2 key.2 then (key, v) :: rest
      else (key', v') :: upsertHandler key v rest

/-- Python dict lookup on the handlers table. -/
def lookupHandler {ρ : Type} (key : PyValue × PyValue) :
    List ((PyValue × PyValue) × ((ExecArg → ρ) × ExecutorScope)) →
    Option ((ExecArg → ρ) × ExecutorScope)
  | [] => Option.none
  | (key', v) :: rest =>
      if pyEq key'.1 key.1 && pyEq key'.2 key.2 then some v else lookupHandler key rest

/-- `addMessageHandler(action, requestType=REQUEST.GET,
requestCommand=None, scope=ExecutorScope.MESSAGE)`: creates the
handlers dict on first use and upserts (last registration wins). -/
def addMessageHandler {ρ : Type} (ex : ProtocolExecutor ρ) (action : ExecArg → ρ)
    (requestType : PyValue) (requestCommand : PyValue) (scope : ExecutorScope) :
    ProtocolExecutor ρ :=
  let table := upsertHandler (requestType, requestCommand) (action, scope) (ex.handlers.getD [])
  { ex with handlers := some table }

/-- `setDefaultHandler(action)`. -/
def setDefaultHandler {ρ : Type} (ex : ProtocolExecutor ρ) (action : Option (ProtocolData → ρ)) :
    ProtocolExecutor ρ :=
  { ex with defaultHandler := some action }

/-- The slice of an envelope selected by a registration's scope. -/
def scopeView (scope : ExecutorScope) (msg : ProtocolData) : ExecArg :=
  match scope with
  | .MESSAGE => .message msg.message
  | .WHOLE => .whole msg
  | .COMMAND => .command msg.command
  | .RESPONSE => .response msg.type

/-- `executeHandlers()` from protocol.py.  The (type, command) tuple of
the current message selects a handler, which receives its scope's view
of the message.  With no matching entry, the code evaluates
`self.defaultHandler`: if that attribute was never assigned the access
itself raises AttributeError; if it holds a falsy value the ValueError
naming the request tuple is raised; otherwise the default handler
receives the whole ProtocolData. -/
def executeHandlers {ρ : Type} (ex : ProtocolExecutor ρ) : Except PyErr ρ :=
  match ex.message with
  | Option.none => .error (.attributeError "getType")
  | some msg =>
    match ex.handlers with
    | Option.none => .error (.attributeError "handlers")
    | some hs =>
      match lookupHandler (msg.type, msg.command) hs with
      | some (action, scope) => .ok (action (scopeView scope msg))
      | Option.none =>
        match ex.defaultHandler with
        | Option.none => .error (.attributeError "defaultHandler")
        | some Option.none => .error (.unhandledPair msg.type msg.command)
        | some (some f) => .ok (f msg)

/-- One end of a TCP byte stream as the receiver sees it: `pending` is
the sequence of bytes that will still be delivered before the peer's
close is observed, and `sched` is an arbitrary chunking schedule
deciding how many bytes each `recv` call yields (clipped to at least 1
and at most the requested and available count), so every possible split
of the data into partial reads is covered by some schedule. -/
structure ByteStream where
  pending : List Nat
  sched : Nat → Nat
  step : Nat

/-- `sock.recv(n)`: an empty result models the peer having closed;
otherwise between 1 and `n` of the pending bytes arrive, as the
schedule dictates. -/
def recvStep (s : ByteStream) (n : Nat) : List Nat × ByteStream :=
  match s.pending with
  | [] => ([], s)
  | _ =>
    let k := min (max (s.sched s.step) 1) (min n s.pending.length)
    (s.pending.take k, ⟨s.pending.drop k, s.sched, s.step + 1⟩)

/-- `recvAll(sock, numBytes)` from helper.py: loop until `numBytes`
bytes have accumulated, returning `Option.none` (Python None) as soon
as one `recv` comes back empty. -/
def recvAll (s : ByteStream) (numBytes : Nat) (acc : List Nat) : Option (List Nat) × ByteStream :=
  if hlt : acc.length < numBytes then
    let res := recvStep s (numBytes - acc.length)
    if h : res.1 = [] then (Option.none, res.2)
    else recvAll res.2 numBytes (acc ++ res.1)
  else (some acc, s)
termination_by numBytes - acc.length
decreasing_by
  have h1 : 0 < (recvStep s (numBytes - acc.length)).1.length := List.length_pos.mpr h
  simp only [List.length_append]
  omega

/-- `struct.pack('>I', n)`: the 4 big-endian bytes of `n` (callers must
keep `n` below 2^32, or `struct.pack` raises). -/
def packBE32 (n : Nat) : List Nat :=
  [n / 2 ^ 24 % 256, n / 2 ^ 16 % 256, n / 2 ^ 8 % 256, n % 256]

/-- `struct.unpack('>I', raw)[0]` on a 4-byte string. -/
def unpackBE32 : List Nat → Nat
  | [a, b, c, d] => ((a * 256 + b) * 256 + c) * 256 + d
  | _ => 0

/-- `sendMessage(sock, message)` from helper.py: the byte sequence
handed to `sock.sendall`, a 4-byte big-endian length prefix followed by
the payload. -/
def sendMessage (message : List Nat) : List Nat :=
  packBE32 message.length ++ message

/-- `recvMessage(sock)` from helper.py: read 4 bytes, interpret them as
the payload length, read that many bytes.  `Option.none` is Python's
None, returned both when the first `recvAll` yields None and, through
the falsy check `if not raw_message`, when it yields an empty buffer. -/
def recvMessage (s : ByteStream) : Option (List Nat) × ByteStream :=
  match recvAll s 4 [] with
  | (Option.none, s1) => (Option.none, s1)
  | (some raw, s1) =>
    if raw = [] then (Option.none, s1)
    else recvAll s1 (unpackBE32 raw) []

/-- What `udpService` in elerpServer.py does with one decoded datagram:
either a reply datagram is sent back to the sender, or an exception
escapes the function (and, since the listener loop in networking.py
catches only socket.timeout, kills the UDP listener thread). -/
inductive UdpResult where
  | sent (wire : JValue)
  | crashed (e : PyErr)

/-- `udpService(data, addr)` from elerpServer.py: a ProtocolExecutor is
built around the datagram with one handler for (REQUEST.POST,
'elerp_client') in COMMAND scope whose action sends an OK envelope
carrying the server's address.  The `except ValueError` branch was
written to send an ERROR/INVALID_REQUEST reply, but its first
statement `e.with_traceback()` calls with_traceback with no argument,
which itself raises TypeError, so even a caught ValueError escapes
before the reply is sent; any non-ValueError escapes directly. -/
def udpService (localIP : String) (data : ProtocolData) : UdpResult :=
  let sendToClient : ExecArg → JValue :=
    fun _ => serializeEnvelope (.resp .OK) .none (.str localIP)
  let executor : ProtocolExecutor JValue :=
    addMessageHandler (ProtocolExecutor.init (some data)) sendToClient
      (.req .POST) (.str "elerp_client") .COMMAND
  match executeHandlers executor with
  | .ok wire => .sent wire
  | .error e =>
      if e.isValueError then .crashed .typeError
      else .crashed e

/-- What the discovery socket yields to `searchServer` after the
broadcast: a timeout, a connection reset (errno 10054), or a datagram
(already decoded from bytes to a JSON tree) from some address. -/
inductive DiscoveryOutcome where
  | timeout
  | connReset
  | datagram (wire : JValue) (addr : String × Nat)

/-- The Python value `searchServer` returns. -/
inductive SearchResult where
  | pyNone
  | nonePair
  | found (addr : String × Nat)
  deriving Repr, DecidableEq

/-- `searchServer(serverPort, identifier, logger=None)` from
networking.py, as a function of what the socket produced and of
whether a logger was supplied.  The `return addr` of the success path
and the `return None, None` of the timeout path sit *inside* the
`if logger:` blocks, so without a logger those paths fall through to
the trailing `s.close()` and the function returns None; the
`return None, None` of the `except ValueError` arm is outside its
`if logger:` and is reached either way.  A reply that fails to decode
raises a ValueError subclass (JSONDecodeError) or propagates a
non-ValueError lookup error.  `pyNone` is the implicit None return. -/
def searchServer (outcome : DiscoveryOutcome) (hasLogger : Bool) : Except PyErr SearchResult :=
  match outcome with
  | .timeout => if hasLogger then .ok .nonePair else .ok .pyNone
  | .connReset => .ok .pyNone
  | .datagram wire addr =>
    match deserializeMessageAsProtocolData wire with
    | .error e => if e.isValueError then .ok .nonePair else .error e
    | .ok response =>
      if pyEq response.type (.resp .OK) then
        if hasLogger then .ok (.found addr) else .ok .pyNone
      else .ok .nonePair

/-- Python subscription `obj[idx]` for the container shapes the server
handlers use: string-keyed dicts and integer-indexed lists (negative
indices wrap around, as in Python). -/
def pySubscript : PyValue → PyValue → Except PyErr PyValue
  | .dict kvs, .str k =>
      (match pyGet kvs k with
       | some v => .ok v
       | Option.none => .error (.keyError k))
  | .list xs, .int i =>
      if h : 0 ≤ i ∧ i < xs.length then .ok (xs.getD i.toNat .none)
      else if -(xs.length : Int) ≤ i ∧ i < 0 then .ok (xs.getD (xs.length - (-i).toNat) .none)
      else .error .indexError
  | .list xs, .bool b =>
      let i := if b then 1 else 0
      if i < xs.length then .ok (xs.getD i .none) else .error .indexError
  | _, _ => .error .typeError

/-- `request[k]` inside `handelUpload`: a KeyError when absent. -/
def getParam (request : List (String × PyValue)) (k : String) : Except PyErr PyValue :=
  match pyGet request k with
  | some v => .ok v
  | Option.none => .error (.keyError k)

/-- `handelUpload(request)` from elerpServer.py.  `progRes` is the
resources object loaded at startup (external data, passed as a
parameter) and `saveFails` abstracts the outcome of the `try` block
that decodes the base64 payload and writes the file (the filesystem
being an external collaborator); the database insert on the success
path is likewise external, but the `subject['name']`/`form['name']`
subscriptions evaluated for its arguments are kept.  The result is the
serialized reply envelope. -/
def handelUpload (progRes : PyValue) (saveFails : Bool)
    (request : List (String × PyValue)) : Except PyErr JValue :=
  match getParam request "fileData" with
  | .error e => .error e
  | .ok fileData =>
  match getParam request "form" with
  | .error e => .error e
  | .ok form =>
  match getParam request "subject" with
  | .error e => .error e
  | .ok subject =>
  match getParam request "name" with
  | .error e => .error e
  | .ok name =>
  match getParam request "description" with
  | .error e => .error e
  | .ok _description =>
  match getParam request "creationDate" with
  | .error e => .error e
  | .ok _creationDate =>
  if form.isPyNone || subject.isPyNone || name.isPyNone || fileData.isPyNone then
    .ok (serializeEnvelope (.resp .ERROR) .none (.status .EMPTY_PARAMETER))
  else
    match pySubscript progRes (.str "forms") with
    | .error e => .error e
    | .ok forms =>
    match pySubscript forms form with
    | .error e => .error e
    | .ok formEntry =>
    match pySubscript progRes (.str "subjects") with
    | .error e => .error e
    | .ok subjects =>
    match pySubscript subjects subject with
    | .error e => .error e
    | .ok subjectEntry =>
    if formEntry.isPyNone || subjectEntry.isPyNone then
      .ok (serializeEnvelope (.resp .ERROR) .none (.status .INVALID_PARAMETER))
    else if saveFails then
      .ok (serializeEnvelope (.resp .ERROR) .none (.status .UPLOAD_FAILED))
    else
      match pySubscript subjectEntry (.str "name") with
      | .error e => .error e
      | .ok _subjectName =>
      match pySubscript formEntry (.str "name") with
      | .error e => .error e
      | .ok _formName => .ok (serializeEnvelope (.resp .OK) .none (.status .SUCCESS))

mutual
/-- The value the decode pipeline can at best reproduce: identical to
the input except that every bytes value has become its base64 text
(the wire carries no marker for bytes, so nothing ever decodes them
back). -/
def b64image : PyValue → PyValue
  | .bytes bs => .str (b64encode bs)
  | .list xs => .list (b64imageList xs)
  | .dict kvs => .dict (b64imageKvs kvs)
  | v => v

/-- Elementwise `b64image`. -/
def b64imageList : List PyValue → List PyValue
  | [] => []
  | x :: r => b64image x :: b64imageList r

/-- Valuewise `b64image`. -/
def b64imageKvs : List (String × PyValue) → List (String × PyValue)
  | [] => []
  | (k, v) :: r => (k, b64image v) :: b64imageKvs r
end

/-- Whether a dict key collides with one of the three wrapper tags that
`protocolHook` recognises. -/
def isReservedKey (k : String) : Bool :=
  k = "__REQUEST__" || k = "__RESPONSE__" || k = "__STATUS__"

mutual
/-- No dict anywhere inside the value (including dicts nested in
lists) uses a reserved tag key; such a dict would be swallowed or
rejected by `protocolHook` on decode. -/
def reservedFree : PyValue → Bool
  | .list xs => reservedFreeList xs
  | .dict kvs => reservedFreeKvs kvs
  | _ => true

/-- Elementwise `reservedFree`. -/
def reservedFreeList : List PyValue → Bool
  | [] => true
  | x :: r => reservedFree x && reservedFreeList r

/-- Keys are unreserved and values recursively clean. -/
def reservedFreeKvs : List (String × PyValue) → Bool
  | [] => true
  | (k, v) :: r => !isReservedKey k && reservedFree v && reservedFreeKvs r
end

/-- `json.loads` rejects the string, so `recursiveJSONParser` keeps it
unchanged when it appears as a dict value. -/
def parseInert (s : String) : Bool := (jsonParseText s).isNone

mutual
/-- The value survives `recursiveJSONParser` when placed in dict-value
position: every string that the reparser's dict walk can reach (a
string value of this dict or of a dict nested through dicts only; the
value itself when it is a string) is rejected by `json.loads`.
Strings inside lists are never re-parsed, so lists need no condition. -/
def dictPosInert : PyValue → Bool
  | .str s => parseInert s
  | .dict kvs => dictPosInertKvs kvs
  | _ => true

/-- Valuewise `dictPosInert`. -/
def dictPosInertKvs : List (String × PyValue) → Bool
  | [] => true
  | (_, v) :: r => dictPosInert v && dictPosInertKvs r
end

theorem requestFromValue_value (r : REQUEST) : REQUEST.fromValue r.value = some r := by
  cases r <;> rfl

theorem responseFromValue_value (r : RESPONSE) : RESPONSE.fromValue r.value = some r := by
  cases r <;> rfl

theorem statusFromValue_value (s : STATUS) : STATUS.fromValue s.value = some s := by
  cases s <;> rfl

theorem b64imageKvs_keys_reserved (kvs : List (String × PyValue)) (k : String)
    (hk : isReservedKey k = true) (h : reservedFreeKvs kvs = true) :
    pyGet (b64imageKvs kvs) k = Option.none := by
  induction kvs with
  | nil => rfl
  | cons hd tl ih =>
    obtain ⟨k', v⟩ := hd
    simp only [reservedFreeKvs, Bool.and_eq_true, Bool.not_eq_true'] at h
    obtain ⟨⟨h1, _⟩, h3⟩ := h
    simp only [b64imageKvs, pyGet, ih h3]
    have : k' ≠ k := by
      intro he
      rw [he, hk] at h1
      exact Bool.true_eq_false.mp h1
    simp [this]

theorem protocolHook_clean (kvs : List (String × PyValue)) (h : reservedFreeKvs kvs = true) :
    protocolHook (b64imageKvs kvs) = .ok (.dict (b64imageKvs kvs)) := by
  unfold protocolHook
  rw [b64imageKvs_keys_reserved kvs _ (by decide) h,
      b64imageKvs_keys_reserved kvs _ (by decide) h,
      b64imageKvs_keys_reserved kvs _ (by decide) h]

mutual
theorem jsonLoad_encode (v : PyValue) (h : reservedFree v = true) :
    jsonLoadTree (encodePy v) = .ok (b64image v) := by
  cases v with
  | none => rfl
  | bool b => rfl
  | int n => rfl
  | float lit => rfl
  | str s => rfl
  | bytes bs => rfl
  | req r =>
      simp [encodePy, jsonLoadTree, jsonLoadKvs, protocolHook, pyGet, requestCall,
            requestFromValue_value, b64image]
  | resp r =>
      simp [encodePy, jsonLoadTree, jsonLoadKvs, protocolHook, pyGet, responseCall,
            responseFromValue_value, b64image]
  | status s =>
      simp [encodePy, jsonLoadTree, jsonLoadKvs, protocolHook, pyGet, statusCall,
            statusFromValue_value, b64image]
  | list xs =>
      have h' : reservedFreeList xs = true := by simpa [reservedFree] using h
      have hl := jsonLoad_encodeList xs h'
      simp [encodePy, jsonLoadTree, hl, b64image]
  | dict kvs =>
      have h' : reservedFreeKvs kvs = true := by simpa [reservedFree] using h
      have hk := jsonLoad_encodeKvs kvs h'
      simp [encodePy, jsonLoadTree, hk, b64image, protocolHook_clean kvs h']

theorem jsonLoad_encodeList (xs : List PyValue) (h : reservedFreeList xs = true) :
    jsonLoadList (encodePyList xs) = .ok (b64imageList xs) := by
  cases xs with
  | nil => rfl
  | cons x r =>
      simp only [reservedFreeList, Bool.and_eq_true] at h
      have hx := jsonLoad_encode x h.1
      have hr := jsonLoad_encodeList r h.2
      simp [encodePyList, jsonLoadList, hx, hr, b64imageList]

theorem jsonLoad_encodeKvs (kvs : List (String × PyValue)) (h : reservedFreeKvs kvs = true) :
    jsonLoadKvs (encodePyKvs kvs) = .ok (b64imageKvs kvs) := by
  cases kvs with
  | nil => rfl
  | cons hd tl =>
      obtain ⟨k, v⟩ := hd
      simp only [reservedFreeKvs, Bool.and_eq_true] at h
      have hv := jsonLoad_encode v h.1.2
      have ht := jsonLoad_encodeKvs tl h.2
      simp [encodePyKvs, jsonLoadKvs, hv, ht, b64imageKvs]
end

theorem reparseListElems_id (xs : List PyValue) : reparseListElems xs = xs := by
  induction xs with
  | nil => rfl
  | cons x r ih =>
      cases x <;> simp [reparseListElems, recursiveJSONParser, ih]

mutual
theorem reparse_noop (v : PyValue) (h : dictPosInert v = true) : reparseDictValue v = v := by
  cases v with
  | str s =>
      have hp : jsonParseText s = Option.none := by
        simpa [dictPosInert, parseInert, Option.isNone_iff_eq_none] using h
      simp [reparseDictValue, jsonReload, hp]
  | list xs => simp [reparseDictValue, reparseListElems_id]
  | dict kvs =>
      have h' : dictPosInertKvs kvs = true := by simpa [dictPosInert] using h
      simp [reparseDictValue, reparse_noopKvs kvs h']
  | none => rfl
  | bool b => rfl
  | int n => rfl
  | float lit => rfl
  | bytes bs => rfl
  | req r => rfl
  | resp r => rfl
  | status s => rfl

theorem reparse_noopKvs (kvs : List (String × PyValue)) (h : dictPosInertKvs kvs = true) :
    reparseKvs kvs = kvs := by
  cases kvs with
  | nil => rfl
  | cons hd tl =>
      obtain ⟨k, v⟩ := hd
      simp only [dictPosInertKvs, Bool.and_eq_true] at h
      simp [reparseKvs, reparse_noop v h.1, reparse_noopKvs tl h.2]
end

/-- One decode of one freshly serialized envelope, for any type and
command values that pass through encoding, hook decoding and reparsing
unchanged. -/
theorem deserialize_serialize_core (t cmd body : PyValue)
    (hte : reservedFree t = true) (hti : b64image t = t) (htr : reparseDictValue t = t)
    (hce : reservedFree cmd = true) (hci : b64image cmd = cmd) (hcr : reparseDictValue cmd = cmd)
    (hb : reservedFree body = true) (hi : dictPosInert (b64image body) = true) :
    deserializeMessageAsProtocolData (serializeEnvelope t cmd body)
      = .ok ⟨t, cmd, b64image body, Option.none⟩ := by
  have htop : reservedFree (.dict [("type", t), ("command", cmd), ("message", body)]) = true := by
    simp [reservedFree, reservedFreeKvs, isReservedKey, hte, hce, hb]
  have hload := jsonLoad_encode _ htop
  have hse : serializeEnvelope t cmd body
      = encodePy (.dict [("type", t), ("command", cmd), ("message", body)]) := rfl
  rw [hse]
  unfold deserializeMessageAsProtocolData
  rw [hload]
  simp only [b64image, b64imageKvs, hti, hci]
  simp [reparseKvs, htr, hcr, reparse_noop _ hi, pyGet]


theorem recvAll_done (s : ByteStream) (numBytes : Nat) (acc : List Nat)
    (hge : ¬ acc.length < numBytes) : recvAll s numBytes acc = (some acc, s) := by
  rw [recvAll]
  simp [hge]

theorem recvAll_closed (s : ByteStream) (numBytes : Nat) (acc : List Nat)
    (hlt : acc.length < numBytes) (he : (recvStep s (numBytes - acc.length)).1 = []) :
    recvAll s numBytes acc = (Option.none, (recvStep s (numBytes - acc.length)).2) := by
  rw [recvAll]
  simp [hlt, he]

theorem recvAll_step (s : ByteStream) (numBytes : Nat) (acc : List Nat)
    (hlt : acc.length < numBytes) (hne : (recvStep s (numBytes - acc.length)).1 ≠ []) :
    recvAll s numBytes acc
      = recvAll (recvStep s (numBytes - acc.length)).2 numBytes
          (acc ++ (recvStep s (numBytes - acc.length)).1) := by
  rw [recvAll]
  simp [hlt, hne]

theorem recvStep_spec (s : ByteStream) (n : Nat) (hne : s.pending ≠ []) (hn : 1 ≤ n) :
    ∃ k, 1 ≤ k ∧ k ≤ n ∧ k ≤ s.pending.length ∧
      (recvStep s n).1 = s.pending.take k ∧ (recvStep s n).2.pending = s.pending.drop k := by
  unfold recvStep
  cases hpe : s.pending with
  | nil => exact absurd hpe hne
  | cons b bs =>
    refine ⟨min (max (s.sched s.step) 1) (min n (b :: bs).length), ?_, ?_, ?_, ?_, ?_⟩
    · have h1 := le_max_right (s.sched s.step) 1
      have h2 : (1 : Nat) ≤ (b :: bs).length := by simp
      omega
    · omega
    · omega
    · rfl
    · rfl

theorem recvStep_pending_nil (s : ByteStream) (n : Nat) (hpe : s.pending = []) :
    recvStep s n = ([], s) := by
  unfold recvStep
  rw [hpe]

theorem recvStep_sched (s : ByteStream) (n : Nat) : (recvStep s n).2.sched = s.sched := by
  unfold recvStep
  cases s.pending <;> rfl

theorem recvAll_enough_fuel (fuel : Nat) : ∀ (s : ByteStream) (numBytes : Nat) (acc : List Nat),
    numBytes - acc.length ≤ fuel →
    numBytes - acc.length ≤ s.pending.length →
    ∃ s' : ByteStream,
      recvAll s numBytes acc = (some (acc ++ s.pending.take (numBytes - acc.length)), s') ∧
      s'.pending = s.pending.drop (numBytes - acc.length) ∧ s'.sched = s.sched := by
  induction fuel with
  | zero =>
      intro s numBytes acc hf _
      have h0 : numBytes - acc.length = 0 := by omega
      refine ⟨s, ?_, ?_, rfl⟩
      · rw [recvAll_done s numBytes acc (by omega)]
        simp [h0]
      · simp [h0]
  | succ f ih =>
      intro s numBytes acc hf hp
      by_cases hlt : acc.length < numBytes
      · have hm1 : 1 ≤ numBytes - acc.length := by omega
        have hne : s.pending ≠ [] := by
          intro he
          rw [he] at hp
          simp at hp
          omega
        obtain ⟨k, hk1, hkn, hklen, hc, hd⟩ := recvStep_spec s (numBytes - acc.length) hne hm1
        have hclen : (recvStep s (numBytes - acc.length)).1.length = k := by
          rw [hc, List.length_take]
          omega
        have hcne : (recvStep s (numBytes - acc.length)).1 ≠ [] := by
          intro he
          rw [he] at hclen
          simp at hclen
          omega
        rw [recvAll_step s numBytes acc hlt hcne]
        have hf' : numBytes - (acc ++ (recvStep s (numBytes - acc.length)).1).length ≤ f := by
          rw [List.length_append, hclen]
          omega
        have hp' : numBytes - (acc ++ (recvStep s (numBytes - acc.length)).1).length
            ≤ (recvStep s (numBytes - acc.length)).2.pending.length := by
          rw [List.length_append, hclen, hd, List.length_drop]
          omega
        obtain ⟨s2, he2, hp2, hs2⟩ := ih _ numBytes _ hf' hp'
        refine ⟨s2, ?_, ?_, by rw [hs2, recvStep_sched]⟩
        · rw [he2, hc, hd, List.length_append, List.length_take, min_eq_left hklen,
              List.append_assoc, ← List.take_add]
          have harith : k + (numBytes - (acc.length + k)) = numBytes - acc.length := by omega
          rw [harith]
        · rw [hp2, hd, List.drop_drop, List.length_append, hclen]
          congr 1
          omega
      · refine ⟨s, ?_, ?_, rfl⟩
        · rw [recvAll_done s numBytes acc hlt]
          have h0 : numBytes - acc.length = 0 := by omega
          simp [h0]
        · have h0 : numBytes - acc.length = 0 := by omega
          simp [h0]

theorem recvAll_enough (s : ByteStream) (numBytes : Nat) (acc : List Nat)
    (hp : numBytes - acc.length ≤ s.pending.length) :
    ∃ s' : ByteStream,
      recvAll s numBytes acc = (some (acc ++ s.pending.take (numBytes - acc.length)), s') ∧
      s'.pending = s.pending.drop (numBytes - acc.length) ∧ s'.sched = s.sched :=
  recvAll_enough_fuel numBytes s numBytes acc (by omega) hp

theorem recvAll_short_fuel (fuel : Nat) : ∀ (s : ByteStream) (numBytes : Nat) (acc : List Nat),
    numBytes - acc.length ≤ fuel →
    s.pending.length < numBytes - acc.length →
    (recvAll s numBytes acc).1 = Option.none := by
  induction fuel with
  | zero =>
      intro s numBytes acc hf hshort
      omega
  | succ f ih =>
      intro s numBytes acc hf hshort
      have hlt : acc.length < numBytes := by omega
      have hm1 : 1 ≤ numBytes - acc.length := by omega
      cases hpe : s.pending with
      | nil =>
          have he : (recvStep s (numBytes - acc.length)).1 = [] := by
            rw [recvStep_pending_nil s _ hpe]
          rw [recvAll_closed s numBytes acc hlt he]
      | cons b bs =>
          have hne : s.pending ≠ [] := by rw [hpe]; simp
          obtain ⟨k, hk1, hkn, hklen, hc, hd⟩ := recvStep_spec s (numBytes - acc.length) hne hm1
          have hclen : (recvStep s (numBytes - acc.length)).1.length = k := by
            rw [hc, List.length_take]
            omega
          have hcne : (recvStep s (numBytes - acc.length)).1 ≠ [] := by
            intro he
            rw [he] at hclen
            simp at hclen
            omega
          rw [recvAll_step s numBytes acc hlt hcne]
          apply ih
          · rw [List.length_append, hclen]
            omega
          · rw [List.length_append, hclen, hd, List.length_drop]
            omega

theorem recvAll_short (s : ByteStream) (numBytes : Nat) (acc : List Nat)
    (hshort : s.pending.length < numBytes - acc.length) :
    (recvAll s numBytes acc).1 = Option.none :=
  recvAll_short_fuel numBytes s numBytes acc (by omega) hshort

theorem unpackBE32_packBE32 (n : Nat) (h : n < 2 ^ 32) : unpackBE32 (packBE32 n) = n := by
  simp only [packBE32, unpackBE32]
  omega

theorem packBE32_length (n : Nat) : (packBE32 n).length = 4 := rfl

theorem recvMessage_after_sendMessage (payload rest : List Nat) (sched : Nat → Nat) (step : Nat)
    (h : payload.length < 2 ^ 32) :
    (recvMessage ⟨sendMessage payload ++ rest, sched, step⟩).1 = some payload := by
  have hpend : (⟨sendMessage payload ++ rest, sched, step⟩ : ByteStream).pending
      = packBE32 payload.length ++ (payload ++ rest) := by
    simp [sendMessage, List.append_assoc]
  have h4len : (4 : Nat) - ([] : List Nat).length = (packBE32 payload.length).length := by
    rw [packBE32_length]
    rfl
  obtain ⟨s1, he1, hp1, _⟩ := recvAll_enough ⟨sendMessage payload ++ rest, sched, step⟩ 4 []
    (by rw [hpend, List.length_append, packBE32_length]; simp)
  have htake : (⟨sendMessage payload ++ rest, sched, step⟩ : ByteStream).pending.take
      (4 - ([] : List Nat).length) = packBE32 payload.length := by
    rw [hpend, h4len, List.take_left]
  have hdrop : s1.pending = payload ++ rest := by
    rw [hp1, hpend, h4len, List.drop_left]
  have hne : packBE32 payload.length ≠ [] := by simp [packBE32]
  obtain ⟨s2, he2, _, _⟩ := recvAll_enough s1 payload.length []
    (by rw [hdrop, List.length_append]; simp)
  unfold recvMessage
  rw [he1, htake]
  simp only [List.nil_append]
  rw [if_neg hne, unpackBE32_packBE32 _ h, he2]
  simp only [List.nil_append]
  rw [hdrop]
  have : (payload ++ rest).take (payload.length - ([] : List Nat).length) = payload := by
    have h0 : payload.length - ([] : List Nat).length = payload.length := by simp
    rw [h0, List.take_left]
  rw [this]

theorem recvMessage_short_header (s : ByteStream) (hshort : s.pending.length < 4) :
    (recvMessage s).1 = Option.none := by
  have h := recvAll_short s 4 [] (by simpa using hshort)
  unfold recvMessage
  cases hres : recvAll s 4 [] with
  | mk r s1 =>
    rw [hres] at h
    simp only at h
    subst h
    rfl

theorem recvMessage_short_payload (L : Nat) (part : List Nat) (sched : Nat → Nat) (step : Nat)
    (hL : L < 2 ^ 32) (hshort : part.length < L) :
    (recvMessage ⟨packBE32 L ++ part, sched, step⟩).1 = Option.none := by
  have h4len : (4 : Nat) - ([] : List Nat).length = (packBE32 L).length := by
    rw [packBE32_length]
    rfl
  obtain ⟨s1, he1, hp1, _⟩ := recvAll_enough ⟨packBE32 L ++ part, sched, step⟩ 4 []
    (by rw [List.length_append, packBE32_length]; simp)
  have htake : (⟨packBE32 L ++ part, sched, step⟩ : ByteStream).pending.take
      (4 - ([] : List Nat).length) = packBE32 L := by
    rw [show (⟨packBE32 L ++ part, sched, step⟩ : ByteStream).pending = packBE32 L ++ part from rfl,
        h4len, List.take_left]
  have hdrop : s1.pending = part := by
    rw [hp1, show (⟨packBE32 L ++ part, sched, step⟩ : ByteStream).pending
        = packBE32 L ++ part from rfl, h4len, List.drop_left]
  have hne : packBE32 L ≠ [] := by simp [packBE32]
  have hshort2 := recvAll_short s1 L [] (by rw [hdrop]; simpa using hshort)
  unfold recvMessage
  rw [he1, htake]
  simp only [List.nil_append]
  rw [if_neg hne, unpackBE32_packBE32 _ hL]
  cases hres : recvAll s1 L [] with
  | mk r s2 =>
    rw [hres] at hshort2
    simp only at hshort2
    subst hshort2
    rfl

/-- An envelope kind from the closed request/response set, as a Python
value. -/
def kindPy : REQUEST ⊕ RESPONSE → PyValue
  | .inl r => .req r
  | .inr r => .resp r

/-- An optional command string as the Python value stored in the
envelope. -/
def optCmdPy : Option String → PyValue
  | Option.none => .none
  | some s => .str s

/-- The command survives the deserializer's string re-parse: either it
is absent or `json.loads` rejects it. -/
def cmdInert : Option String → Bool
  | Option.none => true
  | some s => parseInert s

/-- C1 counterexample.  The claim promises that deserializing the
serialized text reproduces the body with binary fields byte-exact after
the base64 round-trip; serializing a body holding the bytes `hello`
yields base64 text on the wire, and the deserializer hands back that
text as a string - nothing ever decodes it to bytes - so the decoded
body differs from the original. -/
theorem C1_counterexample :
    deserializeMessageAsProtocolData
        (serializeEnvelope (.req .POST) (.str "uploadWorksheet")
          (.dict [("fileData", .bytes [104, 101, 108, 108, 111])]))
      = .ok ⟨.req .POST, .str "uploadWorksheet",
             .dict [("fileData", .str "aGVsbG8=")], Option.none⟩
    ∧ (PyValue.dict [("fileData", .str "aGVsbG8=")])
        ≠ .dict [("fileData", .bytes [104, 101, 108, 108, 111])] := by
  constructor
  · rfl
  · simp

/-- C1 (amended): for every envelope built through the builder rules -
kind from the closed request/response set, optional command string, and
a body that is a mapping, list, scalar, or raw bytes, nested mappings
and lists included - such that no mapping in the body uses one of the
reserved tag keys, and no string in re-parsed position (the command,
and every string reachable through mappings, base64 renderings of
bytes fields included) parses as JSON text, deserializing the
serialized text reproduces the kind and the command exactly and the
body up to base64: bytes fields come back as their base64 text, all
other fields are reproduced exactly. -/
theorem C1_roundtrip_amended (k : REQUEST ⊕ RESPONSE) (cmd : Option String) (body : PyValue)
    (hc : cmdInert cmd = true) (hb : reservedFree body = true)
    (hi : dictPosInert (b64image body) = true) :
    deserializeMessageAsProtocolData (serializeEnvelope (kindPy k) (optCmdPy cmd) body)
      = .ok ⟨kindPy k, optCmdPy cmd, b64image body, Option.none⟩ := by
  apply deserialize_serialize_core
  · cases k <;> rfl
  · cases k <;> rfl
  · cases k <;> rfl
  · cases cmd <;> rfl
  · cases cmd <;> rfl
  · cases cmd with
    | none => rfl
    | some s =>
        have hp : dictPosInert (.str s) = true := by simpa [cmdInert, dictPosInert] using hc
        exact reparse_noop (.str s) hp
  · exact hb
  · exact hi

/-- C1 witness: a concrete envelope with a nested mapping, a list, a
binary field and plain strings, run through the amended round-trip. -/
theorem C1_roundtrip_amended_witness :
    deserializeMessageAsProtocolData
        (serializeEnvelope (kindPy (.inl .POST)) (optCmdPy (some "uploadWorksheet"))
          (.dict [("name", .str "F1_Math_1_Test.txt"),
                  ("fileData", .bytes [104, 101, 108, 108, 111]),
                  ("meta", .dict [("tags", .list [.int 1, .str "x"]),
                                  ("status", .status .SUCCESS)])]))
      = .ok ⟨kindPy (.inl .POST), optCmdPy (some "uploadWorksheet"),
             b64image (.dict [("name", .str "F1_Math_1_Test.txt"),
                  ("fileData", .bytes [104, 101, 108, 108, 111]),
                  ("meta", .dict [("tags", .list [.int 1, .str "x"]),
                                  ("status", .status .SUCCESS)])]), Option.none⟩ :=
  C1_roundtrip_amended (.inl .POST) (some "uploadWorksheet")
    (.dict [("name", .str "F1_Math_1_Test.txt"),
            ("fileData", .bytes [104, 101, 108, 108, 111]),
            ("meta", .dict [("tags", .list [.int 1, .str "x"]),
                            ("status", .status .SUCCESS)])])
    (by decide) (by decide) (by decide)

/-- C2: for every byte string of length L below the 2^32 bound of the
4-byte prefix (L = 0 included, arbitrarily large L included), a framed
receive after a framed send of that byte string returns exactly the
original bytes, for every chunking schedule the transport may use and
with any further bytes queued behind the message. -/
theorem C2_framing_roundtrip (payload rest : List Nat) (sched : Nat → Nat) (step : Nat)
    (h : payload.length < 2 ^ 32) :
    (recvMessage ⟨sendMessage payload ++ rest, sched, step⟩).1 = some payload :=
  recvMessage_after_sendMessage payload rest sched step h

/-- C2 witness: a concrete 5-byte payload delivered one byte at a time,
and the empty payload. -/
theorem C2_framing_roundtrip_witness :
    (recvMessage ⟨sendMessage [10, 20, 30, 40, 50] ++ [], fun _ => 1, 0⟩).1
      = some [10, 20, 30, 40, 50]
    ∧ (recvMessage ⟨sendMessage [] ++ [], fun n => n + 2, 0⟩).1 = some [] :=
  ⟨C2_framing_roundtrip [10, 20, 30, 40, 50] [] (fun _ => 1) 0 (by norm_num),
   C2_framing_roundtrip [] [] (fun n => n + 2) 0 (by norm_num)⟩

/-- C5 counterexample.  The claim promises a hard read error, distinct
from the clean end-of-stream signal, when the peer closes after part of
the length prefix has been consumed; in fact `recvMessage` returns
Python None - the very value used as the clean end-of-stream signal -
for a stream that closes after delivering 2 prefix bytes, exactly as it
does for a stream that closes before any byte. -/
theorem C5_counterexample :
    (recvMessage ⟨[0, 0], fun _ => 1, 0⟩).1 = Option.none
    ∧ (recvMessage ⟨[], fun _ => 1, 0⟩).1 = Option.none :=
  ⟨recvMessage_short_header _ (by norm_num), recvMessage_short_header _ (by norm_num)⟩

/-- C5 (amended): the framed receive returns the clean end-of-stream
signal (Python None) when the peer closes before any byte of a new
message, and it returns that same None - not a distinct hard error -
when the peer closes after part of the length prefix or part of the
payload has been consumed; callers cannot tell the two closure cases
apart from the return value. -/
theorem C5_closure_signals (sched : Nat → Nat) (step : Nat) :
    (recvMessage ⟨[], sched, step⟩).1 = Option.none
    ∧ (∀ pre : List Nat, pre.length < 4 → (recvMessage ⟨pre, sched, step⟩).1 = Option.none)
    ∧ (∀ (L : Nat) (part : List Nat), L < 2 ^ 32 → part.length < L →
        (recvMessage ⟨packBE32 L ++ part, sched, step⟩).1 = Option.none) :=
  ⟨recvMessage_short_header _ (by norm_num),
   fun pre hpre => recvMessage_short_header _ (by simpa using hpre),
   fun L part hL hshort => recvMessage_short_payload L part sched step hL hshort⟩

/-- C5 witness: clean closure, closure after 2 prefix bytes, and
closure after 2 of 5 payload bytes all yield None. -/
theorem C5_closure_signals_witness :
    (recvMessage ⟨[], fun _ => 2, 0⟩).1 = Option.none
    ∧ (recvMessage ⟨[0, 0], fun _ => 2, 0⟩).1 = Option.none
    ∧ (recvMessage ⟨packBE32 5 ++ [1, 2], fun _ => 2, 0⟩).1 = Option.none :=
  ⟨(C5_closure_signals (fun _ => 2) 0).1,
   (C5_closure_signals (fun _ => 2) 0).2.1 [0, 0] (by norm_num),
   (C5_closure_signals (fun _ => 2) 0).2.2 5 [1, 2] (by norm_num) (by norm_num)⟩

/-- C3: whenever the (kind, command) tuple of the dispatched envelope
is a key of the registered handler table, dispatch returns exactly the
result of that handler applied once to the scope-selected view of the
envelope: the body alone for MESSAGE scope, the command alone for
COMMAND scope, the kind alone for RESPONSE scope, and the whole
envelope for WHOLE scope (see `scopeView`). -/
theorem C3_dispatch_selected_handler {ρ : Type} (ex : ProtocolExecutor ρ) (msg : ProtocolData)
    (hs : List ((PyValue × PyValue) × ((ExecArg → ρ) × ExecutorScope)))
    (action : ExecArg → ρ) (scope : ExecutorScope)
    (hm : ex.message = some msg) (hh : ex.handlers = some hs)
    (hl : lookupHandler (msg.type, msg.command) hs = some (action, scope)) :
    executeHandlers ex = .ok (action (scopeView scope msg)) := by
  unfold executeHandlers
  rw [hm, hh]
  dsimp only
  rw [hl]

/-- The spec scenario's envelope: a GET with command `b`. -/
def msgGetB : ProtocolData := ⟨.req .GET, .str "b", .dict [("x", .int 1)], Option.none⟩

/-- A handler registered for (POST, `a`) that must not run in the
scenario. -/
def handlerA : ExecArg → ExecArg := fun _ => .command (.str "a-was-called")

/-- The handler registered for (GET, `b`); returning its argument makes
the dispatched view observable. -/
def handlerB : ExecArg → ExecArg := fun a => a

/-- The spec scenario's executor: handlers for (POST, `a`) and
(GET, `b`), message (GET, `b`). -/
def exScenario : ProtocolExecutor ExecArg :=
  addMessageHandler
    (addMessageHandler (ProtocolExecutor.init (some msgGetB)) handlerA
      (.req .POST) (.str "a") .MESSAGE)
    handlerB (.req .GET) (.str "b") .MESSAGE

/-- C3 witness: dispatching (GET, `b`) against the scenario table runs
only the `b` handler and hands it exactly the body. -/
theorem C3_dispatch_selected_handler_witness :
    executeHandlers exScenario = .ok (.message (.dict [("x", .int 1)])) :=
  C3_dispatch_selected_handler exScenario msgGetB
    [((.req .POST, .str "a"), (handlerA, .MESSAGE)),
     ((.req .GET, .str "b"), (handlerB, .MESSAGE))]
    handlerB .MESSAGE rfl rfl rfl

/-- The unmatched envelope of the spec scenario. -/
def msgDeleteNonexistent : ProtocolData := ⟨.req .DELETE, .str "nonexistent", .dict [], Option.none⟩

/-- An executor with one handler for (POST, `a`), dispatching
(DELETE, `nonexistent`), and no default handler ever set. -/
def exUnmatched : ProtocolExecutor ProtocolData :=
  addMessageHandler (ProtocolExecutor.init (some msgDeleteNonexistent))
    (fun _ => ProtocolData.init) (.req .POST) (.str "a") .MESSAGE

/-- C4: with no default handler ever set, dispatching an unmatched
(DELETE, `nonexistent`) fails - but with an AttributeError from the
`self.defaultHandler` access, not with the ValueError naming the
(kind, command) pair that the dead `raise` on the next source line was
meant to produce; with a default handler set, the default receives the
whole envelope (the identity default returns the envelope itself). -/
theorem C4_unmatched_dispatch_bug :
    executeHandlers exUnmatched = .error (.attributeError "defaultHandler")
    ∧ (Except.error (.attributeError "defaultHandler") : Except PyErr ProtocolData)
        ≠ .error (.unhandledPair (.req .DELETE) (.str "nonexistent"))
    ∧ executeHandlers (setDefaultHandler exUnmatched (some fun d => d))
        = .ok msgDeleteNonexistent := by
  refine ⟨rfl, by simp, rfl⟩

/-- A structurally valid discovery envelope whose kind does not match
(POST, elerp_client). -/
def validProbeWrongKind : ProtocolData := ⟨.req .GET, .str "elerp_client", .dict [], Option.none⟩

/-- The discovery envelope an elerp client actually broadcasts. -/
def matchingProbe : ProtocolData := ⟨.req .POST, .str "elerp_client", .dict [], Option.none⟩

/-- C7: a structurally valid datagram whose (kind, command) does not
match (POST, elerp_client) makes `executeHandlers` raise AttributeError
(no default handler was ever set); `udpService` catches only
ValueError, so no ERROR/INVALID_REQUEST reply is sent and the exception
escapes into the listener loop (which catches only socket.timeout),
killing the discovery thread.  A matching probe does get the OK reply
carrying the server's address. -/
theorem C7_udp_invalid_request_bug :
    udpService "192.168.0.2" validProbeWrongKind = .crashed (.attributeError "defaultHandler")
    ∧ UdpResult.crashed (.attributeError "defaultHandler")
        ≠ .sent (serializeEnvelope (.resp .ERROR) .none (.status .INVALID_REQUEST))
    ∧ udpService "192.168.0.2" matchingProbe
        = .sent (serializeEnvelope (.resp .OK) .none (.str "192.168.0.2")) := by
  refine ⟨rfl, by simp, rfl⟩

/-- The OK reply a discovered server unicasts back. -/
def okReplyWire : JValue := serializeEnvelope (.resp .OK) .none (.str "10.0.0.2")

/-- C6: with no logger passed (the default), an OK reply within the
timeout makes `searchServer` fall out of the logger-guarded block and
return None instead of the responder's address, contradicting its own
docstring; with a logger the address is returned, a timeout yields the
(None, None) absence sentinel, and a reply whose kind is not OK is
treated as a discovery failure. -/
theorem C6_search_logger_bug :
    searchServer (.datagram okReplyWire ("192.168.0.7", 54321)) false = .ok .pyNone
    ∧ SearchResult.pyNone ≠ .found ("192.168.0.7", 54321)
    ∧ searchServer (.datagram okReplyWire ("192.168.0.7", 54321)) true
        = .ok (.found ("192.168.0.7", 54321))
    ∧ searchServer .timeout true = .ok .nonePair
    ∧ searchServer
        (.datagram (serializeEnvelope (.resp .ERROR) .none (.status .INVALID_REQUEST))
          ("192.168.0.7", 54321)) true
        = .ok .nonePair := by
  refine ⟨rfl, by decide, rfl, rfl, rfl⟩

/-- A stand-in for the res/data.json resources: one form and one
subject, each a mapping with a name. -/
def demoRes : PyValue :=
  .dict [("forms", .list [.dict [("name", .str "F1"), ("cname", .str "Form One")]]),
         ("subjects", .list [.dict [("name", .str "Math"), ("cname", .str "Mathematics")]])]

/-- C8 counterexample.  The claim promises an ERROR envelope with
status EMPTY_PARAMETER when a required field is missing; a request in
which the fields are actually missing (absent keys) instead raises
KeyError out of the handler - the None checks only fire for fields that
are present with a null value. -/
theorem C8_counterexample :
    handelUpload demoRes false [] = .error (.keyError "fileData")
    ∧ (Except.error (.keyError "fileData") : Except PyErr JValue)
        ≠ .ok (serializeEnvelope (.resp .ERROR) .none (.status .EMPTY_PARAMETER)) := by
  refine ⟨rfl, by simp⟩

/-- C8 (amended): when all six request keys are present, the upload
handler converts business errors into ERROR envelopes returned to the
caller: EMPTY_PARAMETER when form, subject, name or fileData is null;
INVALID_PARAMETER when the configured form or subject entry looked up
by the reference is null (an out-of-range or ill-typed reference
instead raises); UPLOAD_FAILED when the base64-decode-and-write block
fails.  In each of these cases the handler returns normally, so the
session loop continues. -/
theorem C8_upload_error_envelopes (progRes : PyValue) (saveFails : Bool)
    (request : List (String × PyValue))
    (fileData form subject name desc cdate : PyValue)
    (h1 : pyGet request "fileData" = some fileData)
    (h2 : pyGet request "form" = some form)
    (h3 : pyGet request "subject" = some subject)
    (h4 : pyGet request "name" = some name)
    (h5 : pyGet request "description" = some desc)
    (h6 : pyGet request "creationDate" = some cdate) :
    ((form.isPyNone || subject.isPyNone || name.isPyNone || fileData.isPyNone) = true →
      handelUpload progRes saveFails request
        = .ok (serializeEnvelope (.resp .ERROR) .none (.status .EMPTY_PARAMETER)))
    ∧ (∀ forms formEntry subjects subjectEntry : PyValue,
        (form.isPyNone || subject.isPyNone || name.isPyNone || fileData.isPyNone) = false →
        pySubscript progRes (.str "forms") = .ok forms →
        pySubscript forms form = .ok formEntry →
        pySubscript progRes (.str "subjects") = .ok subjects →
        pySubscript subjects subject = .ok subjectEntry →
        ((formEntry.isPyNone || subjectEntry.isPyNone) = true →
          handelUpload progRes saveFails request
            = .ok (serializeEnvelope (.resp .ERROR) .none (.status .INVALID_PARAMETER)))
        ∧ ((formEntry.isPyNone || subjectEntry.isPyNone) = false → saveFails = true →
          handelUpload progRes saveFails request
            = .ok (serializeEnvelope (.resp .ERROR) .none (.status .UPLOAD_FAILED)))) := by
  constructor
  · intro hcond
    simp [handelUpload, getParam, h1, h2, h3, h4, h5, h6, hcond]
  · intro forms formEntry subjects subjectEntry hcond hfo hfe hsu hse
    constructor
    · intro hinv
      simp [handelUpload, getParam, h1, h2, h3, h4, h5, h6, hcond, hfo, hfe, hsu, hse, hinv]
    · intro hval hsf
      simp [handelUpload, getParam, h1, h2, h3, h4, h5, h6, hcond, hfo, hfe, hsu, hse, hval, hsf]

/-- C8 witness: a request whose form field is null gets the
ERROR/EMPTY_PARAMETER envelope. -/
theorem C8_upload_error_envelopes_witness :
    handelUpload demoRes false
        [("fileData", .str "aGVsbG8="), ("form", .none), ("subject", .int 0),
         ("name", .str "F1_Math_1_Test.txt"), ("description", .str "d"),
         ("creationDate", .str "2024-01-01 00:00:00")]
      = .ok (serializeEnvelope (.resp .ERROR) .none (.status .EMPTY_PARAMETER)) :=
  (C8_upload_error_envelopes demoRes false
    [("fileData", .str "aGVsbG8="), ("form", .none), ("subject", .int 0),
     ("name", .str "F1_Math_1_Test.txt"), ("description", .str "d"),
     ("creationDate", .str "2024-01-01 00:00:00")]
    (.str "aGVsbG8=") .none (.int 0) (.str "F1_Math_1_Test.txt") (.str "d")
    (.str "2024-01-01 00:00:00")
    rfl rfl rfl rfl rfl rfl).1 rfl

/-- C9: the builder clears `self.data` on serialization, but the body
attributes written through `addAttribute` after a defaulted
`prepMessage` live in the shared default-argument dict, which is never
cleared; the next defaulted `prepMessage` therefore produces an
envelope whose body still carries the earlier attributes instead of an
empty mapping. -/
theorem C9_builder_default_leak :
    (do
      let s1 := prepMessage HandlerState.init (.req .GET) (.str "a") Option.none
      let s2 ← addAttribute s1 "k" (.str "v")
      let s3 := (serializeMessage s2).2
      let s4 := prepMessage s3 (.req .GET) (.str "b") Option.none
      pure (serializeMessage s4).1 : Except PyErr JValue)
      = .ok (.obj [("type", .obj [("__REQUEST__", .str "get")]), ("command", .str "b"),
                   ("message", .obj [("k", .str "v")])])
    ∧ (JValue.obj [("k", .str "v")]) ≠ .obj [] := by
  refine ⟨rfl, by simp⟩

/-- The wire text of an envelope that carries a declared
attribute-key list, exactly as ProtocolEncoder would serialize a
ProtocolData whose `setAttributeStrings(['a', 'b'])` stored one. -/
def wireWithAttributes : JValue :=
  encodePy (.dict [("type", .req .GET), ("command", .str "c"), ("message", .dict []),
                   ("attributes", .list [.str "a", .str "b"])])

/-- C10: the attribute list is stored under the `attributes` key and
is present on the wire, but `deserializeMessageAsProtocolData` copies
only type, command and message into the fresh ProtocolData, so
`getAttributeStrings` on the deserialized envelope raises
KeyError('attributes') instead of returning the declared list. -/
theorem C10_attribute_strings_dropped :
    (ProtocolData.init.setAttributeStrings ["a", "b"]).attributes
        = some (.list [.str "a", .str "b"])
    ∧ deserializeMessageAsProtocolData wireWithAttributes
        = .ok ⟨.req .GET, .str "c", .dict [], Option.none⟩
    ∧ ProtocolData.getAttributeStrings ⟨.req .GET, .str "c", .dict [], Option.none⟩
        = .error (.keyError "attributes") := by
  refine ⟨rfl, rfl, rfl⟩
